import Mathlib

set_option maxHeartbeats 1000000

namespace EmbassyImxrt.I2c

/-- Transfer error enumeration from `src/src/i2c/mod.rs` (`TransferError`). -/
inductive TransferError where
  | Timeout
  | ReadFail
  | WriteFail
  | AddressNack
  | ArbitrationLoss
  | StartStopError
  | OtherBusError
deriving DecidableEq, Repr, Fintype

/-- Error information type from `src/src/i2c/mod.rs` (`Error`). -/
inductive Error where
  | UnsupportedConfiguration
  | Transfer (t : TransferError)
deriving DecidableEq, Repr

/-- The conversion `impl From<TransferError> for Error`:
`fn from(value: TransferError) -> Self { Error::Transfer(value) }`. -/
def fromTransferError (value : TransferError) : Error :=
  Error.Transfer value

/-- Recovery direction used to state losslessness of `fromTransferError`. -/
def toTransferError : Error → Option TransferError
  | Error.UnsupportedConfiguration => none
  | Error.Transfer t => some t

/-- The fixed set of supported peripheral instances, generated by
`impl_instance!(0, 1, 2, 3, 4, 5, 6, 7, 15)`. -/
inductive Flexcomm where
  | FLEXCOMM0
  | FLEXCOMM1
  | FLEXCOMM2
  | FLEXCOMM3
  | FLEXCOMM4
  | FLEXCOMM5
  | FLEXCOMM6
  | FLEXCOMM7
  | FLEXCOMM15
deriving DecidableEq, Repr, Fintype

/-- The numeric macro argument `$n` with which `impl_instance!` generates
each instance implementation. -/
def Flexcomm.n : Flexcomm → Nat
  | .FLEXCOMM0 => 0
  | .FLEXCOMM1 => 1
  | .FLEXCOMM2 => 2
  | .FLEXCOMM3 => 3
  | .FLEXCOMM4 => 4
  | .FLEXCOMM5 => 5
  | .FLEXCOMM6 => 6
  | .FLEXCOMM7 => 7
  | .FLEXCOMM15 => 15

/-- Peripheral info handle (`struct Info`); the register-block pointer
`regs` is hardware state outside the embedding, so only the `index`
field is carried. -/
structure Info where
  index : Nat
deriving DecidableEq, Repr

/-- Generated `SealedInstance::info` body:
`let mut info_index = $n; if $n == 15 { info_index = 8; } Info { .., index: info_index }`. -/
def Flexcomm.info (f : Flexcomm) : Info :=
  let info_index := if f.n = 15 then 8 else f.n
  { index := info_index }

/-- Generated `SealedInstance::index` body:
`if $n == 15 { return 8 } $n`. -/
def Flexcomm.index (f : Flexcomm) : Nat :=
  if f.n = 15 then 8 else f.n

/-- `const I2C_COUNT: usize = 9;` -/
def I2C_COUNT : Nat := 9

/-- `const REMEDIATON_NONE: u8 = 0b00000000;` (source spelling kept). -/
def REMEDIATON_NONE : Nat := 0b00000000

/-- `const REMEDIATON_MASTER_STOP: u8 = 0b00000001;` -/
def REMEDIATON_MASTER_STOP : Nat := 0b00000001

/-- `const REMEDIATON_SLAVE_NAK: u8 = 0b00000010;` -/
def REMEDIATON_SLAVE_NAK : Nat := 0b00000010

/-- The `static I2C_REMEDIATION: [AtomicU8; I2C_COUNT]` table, modelled as
a map from peripheral index to the stored byte (a value below 256). -/
abbrev RemTable := Nat → Nat

/-- Bitwise complement on a `u8` value (Rust `!x` at type `u8`). -/
def not8 (x : Nat) : Nat := 255 ^^^ x

/-- `force_clear_remediation(info)`:
`I2C_REMEDIATION[info.index].store(REMEDIATON_NONE, Ordering::Release)`. -/
def force_clear_remediation (t : RemTable) (info : Info) : RemTable :=
  fun i => if i = info.index then REMEDIATON_NONE else t i

/-- Result of a single `Future::poll`. -/
inductive PollResult where
  | ready
  | pending
deriving DecidableEq, Repr

/-- One poll of the `poll_fn` closure inside `wait_remediation_complete(info)`:
it registers the current waker into `I2C_WAKERS[index]` (first component of
the result records which slot) and then returns `Ready` exactly when
`I2C_REMEDIATION[index]` reads `REMEDIATON_NONE`. -/
def wait_remediation_poll (t : RemTable) (info : Info) : Nat × PollResult :=
  let index := info.index
  (index, if t index = REMEDIATON_NONE then PollResult.ready else PollResult.pending)

/-- The interrupt status bits read by `on_interrupt` from `i2c.intstat()`. -/
structure IntStat where
  mstpending : Bool
  mstarbloss : Bool
  mstststperr : Bool
  slvpending : Bool
  slvdesel : Bool
deriving DecidableEq, Repr

/-- Hardware register writes and waker calls performed by `on_interrupt`,
recorded in program order. -/
inductive HwAction where
  | writeMstStop
  | clrMstPending
  | clrMstArbLoss
  | clrMstStStpErr
  | writeSlvNack
  | clrSlvPending
  | clrSlvDesel
  | wakeWaker (i : Nat)
deriving DecidableEq, Repr

/-- `InterruptHandler::<T>::on_interrupt` for a peripheral with
`T::index() = idx`, given the `intstat` bits it observes and the current
remediation table. Returns the updated table and the ordered list of
hardware effects. Each `fetch_and` is modelled by reading the old byte,
storing `old &&& not8 bit`, and deciding on the old (fetched) value. -/
def on_interrupt (idx : Nat) (stat : IntStat) (rem : RemTable) : RemTable × List HwAction :=
  let p1 : RemTable × List HwAction :=
    if stat.mstpending then
      let fetched := rem idx
      let remA : RemTable := fun i => if i = idx then rem i &&& not8 REMEDIATON_MASTER_STOP else rem i
      (remA,
        (if fetched &&& REMEDIATON_MASTER_STOP ≠ 0 then [HwAction.writeMstStop] else []) ++
          [HwAction.clrMstPending])
    else (rem, [])
  let p2 : RemTable × List HwAction :=
    if stat.mstarbloss then (p1.1, p1.2 ++ [HwAction.clrMstArbLoss]) else p1
  let p3 : RemTable × List HwAction :=
    if stat.mstststperr then (p2.1, p2.2 ++ [HwAction.clrMstStStpErr]) else p2
  let p4 : RemTable × List HwAction :=
    if stat.slvpending then
      let fetched := p3.1 idx
      let remB : RemTable := fun i => if i = idx then p3.1 i &&& not8 REMEDIATON_SLAVE_NAK else p3.1 i
      (remB,
        p3.2 ++
          (if fetched &&& REMEDIATON_SLAVE_NAK ≠ 0 then [HwAction.writeSlvNack] else []) ++
          [HwAction.clrSlvPending])
    else p3
  let p5 : RemTable × List HwAction :=
    if stat.slvdesel then (p4.1, p4.2 ++ [HwAction.clrSlvDesel]) else p4
  (p5.1, p5.2 ++ [HwAction.wakeWaker idx])

/-- A sequence of interrupt-handler invocations for the same peripheral,
one per element of `stats`, with no intervening remediation requests;
effects are concatenated in order. -/
def run_interrupts (idx : Nat) (stats : List IntStat) (rem : RemTable) : RemTable × List HwAction :=
  match stats with
  | [] => (rem, [])
  | s :: rest =>
    let p := on_interrupt idx s rem
    let q := run_interrupts idx rest p.1
    (q.1, p.2 ++ q.2)

/-- Unfolded form of the effect trace of one `on_interrupt` invocation:
the five branch contributions in program order, then the single wake. -/
theorem on_interrupt_snd_eq (idx : Nat) (stat : IntStat) (rem : RemTable) :
    (on_interrupt idx stat rem).2 =
      (if stat.mstpending then
          (if rem idx &&& REMEDIATON_MASTER_STOP ≠ 0 then [HwAction.writeMstStop] else []) ++
            [HwAction.clrMstPending]
        else []) ++
      ((if stat.mstarbloss then [HwAction.clrMstArbLoss] else []) ++
      ((if stat.mstststperr then [HwAction.clrMstStStpErr] else []) ++
      ((if stat.slvpending then
          (if (if stat.mstpending then rem idx &&& not8 REMEDIATON_MASTER_STOP else rem idx) &&&
                REMEDIATON_SLAVE_NAK ≠ 0
            then [HwAction.writeSlvNack] else []) ++ [HwAction.clrSlvPending]
        else []) ++
      ((if stat.slvdesel then [HwAction.clrSlvDesel] else []) ++
      [HwAction.wakeWaker idx])))) := by
  obtain ⟨m, a, e, s, d⟩ := stat
  cases m <;> cases a <;> cases e <;> cases s <;> cases d <;>
    simp [on_interrupt, List.append_assoc]

/-- Unfolded pointwise form of the remediation-table update of one
`on_interrupt` invocation. -/
theorem on_interrupt_fst_eq (idx : Nat) (stat : IntStat) (rem : RemTable) (i : Nat) :
    (on_interrupt idx stat rem).1 i =
      if i = idx then
        (if stat.slvpending then
          (if stat.mstpending then rem idx &&& not8 REMEDIATON_MASTER_STOP else rem idx) &&&
            not8 REMEDIATON_SLAVE_NAK
        else
          (if stat.mstpending then rem idx &&& not8 REMEDIATON_MASTER_STOP else rem idx))
      else rem i := by
  obtain ⟨m, a, e, s, d⟩ := stat
  by_cases h : i = idx <;>
    cases m <;> cases a <;> cases e <;> cases s <;> cases d <;>
      simp [on_interrupt, h]

/-- Masking a byte with the complement of `MASTER_STOP` clears that bit. -/
theorem land_clear_master_self (x : Nat) :
    (x &&& not8 REMEDIATON_MASTER_STOP) &&& REMEDIATON_MASTER_STOP = 0 := by
  rw [Nat.land_assoc]
  have h : not8 REMEDIATON_MASTER_STOP &&& REMEDIATON_MASTER_STOP = 0 := by decide
  rw [h]
  simp

/-- Masking a byte with the complement of `SLAVE_NAK` clears that bit. -/
theorem land_clear_slave_self (x : Nat) :
    (x &&& not8 REMEDIATON_SLAVE_NAK) &&& REMEDIATON_SLAVE_NAK = 0 := by
  rw [Nat.land_assoc]
  have h : not8 REMEDIATON_SLAVE_NAK &&& REMEDIATON_SLAVE_NAK = 0 := by decide
  rw [h]
  simp

/-- Clearing `MASTER_STOP` leaves the `SLAVE_NAK` bit of the byte intact. -/
theorem land_clear_master_keeps_slave (x : Nat) :
    (x &&& not8 REMEDIATON_MASTER_STOP) &&& REMEDIATON_SLAVE_NAK = x &&& REMEDIATON_SLAVE_NAK := by
  rw [Nat.land_assoc]
  have h : not8 REMEDIATON_MASTER_STOP &&& REMEDIATON_SLAVE_NAK = REMEDIATON_SLAVE_NAK := by decide
  rw [h]

/-- Clearing `SLAVE_NAK` leaves the `MASTER_STOP` bit of the byte intact. -/
theorem land_clear_slave_keeps_master (x : Nat) :
    (x &&& not8 REMEDIATON_SLAVE_NAK) &&& REMEDIATON_MASTER_STOP = x &&& REMEDIATON_MASTER_STOP := by
  rw [Nat.land_assoc]
  have h : not8 REMEDIATON_SLAVE_NAK &&& REMEDIATON_MASTER_STOP = REMEDIATON_MASTER_STOP := by decide
  rw [h]

/-- C9: the conversion `From<TransferError> for Error` is total and
lossless: every `TransferError` maps to `Error::Transfer` of itself, the
original value is recovered by the inverse projection, and the conversion
is injective. -/
theorem claim_C9_from_transfer_error_total_lossless :
    ∀ t : TransferError,
      fromTransferError t = Error.Transfer t ∧
      toTransferError (fromTransferError t) = some t ∧
      ∀ u : TransferError, fromTransferError t = fromTransferError u → t = u := by
  decide

/-- Witness for C9 at the concrete input `TransferError.Timeout`. -/
theorem claim_C9_witness :
    fromTransferError TransferError.Timeout = Error.Transfer TransferError.Timeout ∧
      toTransferError (fromTransferError TransferError.Timeout) = some TransferError.Timeout ∧
      TransferError.Timeout = TransferError.Timeout :=
  ⟨(claim_C9_from_transfer_error_total_lossless TransferError.Timeout).1,
   (claim_C9_from_transfer_error_total_lossless TransferError.Timeout).2.1,
   (claim_C9_from_transfer_error_total_lossless TransferError.Timeout).2.2 TransferError.Timeout rfl⟩

/-- C8: for every supported instance the generated `index()` is strictly
below `I2C_COUNT = 9`, and the index is unique per instance. -/
theorem claim_C8_index_unique_bounded :
    (∀ f : Flexcomm, f.index < I2C_COUNT) ∧
      ∀ f g : Flexcomm, f.index = g.index → f = g := by
  decide

/-- Witness for C8 at the concrete instance `FLEXCOMM15`. -/
theorem claim_C8_witness :
    Flexcomm.index Flexcomm.FLEXCOMM15 < I2C_COUNT ∧
      Flexcomm.FLEXCOMM15 = Flexcomm.FLEXCOMM15 :=
  ⟨claim_C8_index_unique_bounded.1 Flexcomm.FLEXCOMM15,
   claim_C8_index_unique_bounded.2 Flexcomm.FLEXCOMM15 Flexcomm.FLEXCOMM15 rfl⟩

/-- C10: `info().index` agrees with `index()` on every supported instance,
and the concrete mapping sends FLEXCOMMn to n for n in 0..=7 and
FLEXCOMM15 to 8, so the nine indices are contiguous in 0..9. -/
theorem claim_C10_info_index_agree :
    (∀ f : Flexcomm, (Flexcomm.info f).index = Flexcomm.index f) ∧
      Flexcomm.index Flexcomm.FLEXCOMM0 = 0 ∧
      Flexcomm.index Flexcomm.FLEXCOMM1 = 1 ∧
      Flexcomm.index Flexcomm.FLEXCOMM2 = 2 ∧
      Flexcomm.index Flexcomm.FLEXCOMM3 = 3 ∧
      Flexcomm.index Flexcomm.FLEXCOMM4 = 4 ∧
      Flexcomm.index Flexcomm.FLEXCOMM5 = 5 ∧
      Flexcomm.index Flexcomm.FLEXCOMM6 = 6 ∧
      Flexcomm.index Flexcomm.FLEXCOMM7 = 7 ∧
      Flexcomm.index Flexcomm.FLEXCOMM15 = 8 := by
  decide

/-- C4: each poll of `wait_remediation_complete(info)` registers the waker
slot for `info.index` (so the check re-runs on every wake of that slot)
and resolves `Ready` exactly when the remediation flags for the index read
`REMEDIATON_NONE`; with any bit set it returns `Pending`. -/
theorem claim_C4_poll_ready_iff (t : RemTable) (info : Info) :
    (wait_remediation_poll t info).1 = info.index ∧
      ((wait_remediation_poll t info).2 = PollResult.ready ↔ t info.index = REMEDIATON_NONE) ∧
      ((wait_remediation_poll t info).2 = PollResult.pending ↔ t info.index ≠ REMEDIATON_NONE) := by
  by_cases h : t info.index = REMEDIATON_NONE <;>
    simp [wait_remediation_poll, h]

/-- The effect trace of one invocation splits as a wake-free part followed
by the single final wake of the slot of the peripheral. -/
theorem on_interrupt_trace_shape (idx : Nat) (stat : IntStat) (rem : RemTable) :
    ∃ l, (on_interrupt idx stat rem).2 = l ++ [HwAction.wakeWaker idx] ∧
      ∀ j, HwAction.wakeWaker j ∉ l := by
  refine ⟨(if stat.mstpending then
        (if rem idx &&& REMEDIATON_MASTER_STOP ≠ 0 then [HwAction.writeMstStop] else []) ++
          [HwAction.clrMstPending]
      else []) ++
    ((if stat.mstarbloss then [HwAction.clrMstArbLoss] else []) ++
    ((if stat.mstststperr then [HwAction.clrMstStStpErr] else []) ++
    ((if stat.slvpending then
        (if (if stat.mstpending then rem idx &&& not8 REMEDIATON_MASTER_STOP else rem idx) &&&
              REMEDIATON_SLAVE_NAK ≠ 0
          then [HwAction.writeSlvNack] else []) ++ [HwAction.clrSlvPending]
      else []) ++
    (if stat.slvdesel then [HwAction.clrSlvDesel] else [])))), ?_, ?_⟩
  · rw [on_interrupt_snd_eq]
    simp [List.append_assoc]
  · intro j
    split_ifs <;> simp_all

/-- C6: every interrupt handler invocation wakes the wake slot of the peripheral
exactly once, as its final action, and wakes no other slot, however many
of the five pending conditions were set. -/
theorem claim_C6_wake_exactly_once (idx : Nat) (stat : IntStat) (rem : RemTable) :
    ((on_interrupt idx stat rem).2).count (HwAction.wakeWaker idx) = 1 ∧
      ((on_interrupt idx stat rem).2).getLast? = some (HwAction.wakeWaker idx) ∧
      ∀ j, HwAction.wakeWaker j ∈ (on_interrupt idx stat rem).2 → j = idx := by
  obtain ⟨l, hl, hfree⟩ := on_interrupt_trace_shape idx stat rem
  rw [hl]
  refine ⟨?_, ?_, ?_⟩
  · rw [List.count_append]
    have h0 : l.count (HwAction.wakeWaker idx) = 0 := by
      rw [List.count_eq_zero]
      exact hfree idx
    simp [h0]
  · exact List.getLast?_concat l
  · intro j hj
    rcases List.mem_append.mp hj with h | h
    · exact absurd h (hfree j)
    · simpa using h

/-- Witness for C6 at a concrete invocation (index 0, no condition
pending, flags all clear). -/
theorem claim_C6_witness :
    ((on_interrupt 0 ⟨false, false, false, false, false⟩ (fun _ => 0)).2).count
        (HwAction.wakeWaker 0) = 1 ∧
      ((on_interrupt 0 ⟨false, false, false, false, false⟩ (fun _ => 0)).2).getLast? =
        some (HwAction.wakeWaker 0) ∧
      (0 : Nat) = 0 :=
  ⟨(claim_C6_wake_exactly_once 0 ⟨false, false, false, false, false⟩ (fun _ => 0)).1,
   (claim_C6_wake_exactly_once 0 ⟨false, false, false, false, false⟩ (fun _ => 0)).2.1,
   (claim_C6_wake_exactly_once 0 ⟨false, false, false, false, false⟩ (fun _ => 0)).2.2 0
     (by decide)⟩

/-- C7: `force_clear_remediation` unconditionally sets the flags for
`info.index` to `REMEDIATON_NONE`: a no-op when already `NONE`, flags of
every other index untouched, and a subsequent handler invocation performs
neither a STOP nor a NAK. -/
theorem claim_C7_force_clear (t : RemTable) (info : Info) (stat : IntStat) :
    force_clear_remediation t info info.index = REMEDIATON_NONE ∧
      (∀ i, i ≠ info.index → force_clear_remediation t info i = t i) ∧
      (t info.index = REMEDIATON_NONE → force_clear_remediation t info = t) ∧
      HwAction.writeMstStop ∉
        (on_interrupt info.index stat (force_clear_remediation t info)).2 ∧
      HwAction.writeSlvNack ∉
        (on_interrupt info.index stat (force_clear_remediation t info)).2 := by
  refine ⟨by simp [force_clear_remediation], ?_, ?_, ?_, ?_⟩
  · intro i hi
    simp [force_clear_remediation, hi]
  · intro h
    funext i
    by_cases hi : i = info.index
    · simp [force_clear_remediation, hi, h]
    · simp [force_clear_remediation, hi]
  · rw [on_interrupt_snd_eq]
    obtain ⟨m, a, e, s, d⟩ := stat
    cases m <;> cases a <;> cases e <;> cases s <;> cases d <;>
      simp [force_clear_remediation, REMEDIATON_NONE, REMEDIATON_MASTER_STOP,
        REMEDIATON_SLAVE_NAK, not8]
  · rw [on_interrupt_snd_eq]
    obtain ⟨m, a, e, s, d⟩ := stat
    cases m <;> cases a <;> cases e <;> cases s <;> cases d <;>
      simp [force_clear_remediation, REMEDIATON_NONE, REMEDIATON_MASTER_STOP,
        REMEDIATON_SLAVE_NAK, not8]

/-- Witness for C7 at a concrete pending state (`MASTER_STOP` set on
index 0, handler observing every condition). -/
theorem claim_C7_witness :
    force_clear_remediation (fun _ => 1) ⟨0⟩ 0 = REMEDIATON_NONE ∧
      force_clear_remediation (fun _ => 1) ⟨0⟩ 3 = 1 ∧
      HwAction.writeMstStop ∉
        (on_interrupt 0 ⟨true, true, true, true, true⟩
          (force_clear_remediation (fun _ => 1) ⟨0⟩)).2 :=
  ⟨(claim_C7_force_clear (fun _ => 1) ⟨0⟩ ⟨true, true, true, true, true⟩).1,
   (claim_C7_force_clear (fun _ => 1) ⟨0⟩ ⟨true, true, true, true, true⟩).2.1 3 (by decide),
   (claim_C7_force_clear (fun _ => 1) ⟨0⟩ ⟨true, true, true, true, true⟩).2.2.2.1⟩

/-- Membership in a conditionally produced list. -/
theorem mem_if_list {α : Type} (P : Prop) [Decidable P] (a : α) (l : List α) :
    a ∈ (if P then l else []) ↔ P ∧ a ∈ l := by
  split <;> simp_all

/-- Whether the master branch masked the byte or not, its `SLAVE_NAK` bit
is unchanged. -/
theorem master_masked_keeps_slave_bit (b : Bool) (x : Nat) :
    (if b then x &&& not8 REMEDIATON_MASTER_STOP else x) &&& REMEDIATON_SLAVE_NAK =
      x &&& REMEDIATON_SLAVE_NAK := by
  cases b <;> simp [land_clear_master_keeps_slave]

/-- Value stored for the handled index after one invocation. -/
theorem on_interrupt_fst_at_idx (idx : Nat) (stat : IntStat) (rem : RemTable) :
    (on_interrupt idx stat rem).1 idx =
      if stat.slvpending then
        (if stat.mstpending then rem idx &&& not8 REMEDIATON_MASTER_STOP else rem idx) &&&
          not8 REMEDIATON_SLAVE_NAK
      else
        (if stat.mstpending then rem idx &&& not8 REMEDIATON_MASTER_STOP else rem idx) := by
  rw [on_interrupt_fst_eq]
  simp

/-- C1: whenever the master-pending status bit is set, the handler clears
`MASTER_STOP` in the flags word, writes `mststop` iff `MASTER_STOP` was
set in the fetched prior value, and disables the master-pending enable
bit after any STOP; analogously for the slave-pending branch with
`SLAVE_NAK` and the forced NAK. -/
theorem claim_C1_pending_branches (idx : Nat) (stat : IntStat) (rem : RemTable) :
    (stat.mstpending = true →
      ((on_interrupt idx stat rem).1 idx &&& REMEDIATON_MASTER_STOP = 0 ∧
        (HwAction.writeMstStop ∈ (on_interrupt idx stat rem).2 ↔
          rem idx &&& REMEDIATON_MASTER_STOP ≠ 0) ∧
        ∃ tl, (on_interrupt idx stat rem).2 =
          (if rem idx &&& REMEDIATON_MASTER_STOP ≠ 0 then [HwAction.writeMstStop] else []) ++
            HwAction.clrMstPending :: tl)) ∧
    (stat.slvpending = true →
      ((on_interrupt idx stat rem).1 idx &&& REMEDIATON_SLAVE_NAK = 0 ∧
        (HwAction.writeSlvNack ∈ (on_interrupt idx stat rem).2 ↔
          rem idx &&& REMEDIATON_SLAVE_NAK ≠ 0) ∧
        ∃ l1 tl, (on_interrupt idx stat rem).2 =
          l1 ++
            ((if rem idx &&& REMEDIATON_SLAVE_NAK ≠ 0 then [HwAction.writeSlvNack] else []) ++
              HwAction.clrSlvPending :: tl))) := by
  constructor
  · intro hm
    refine ⟨?_, ?_, ?_⟩
    · rw [on_interrupt_fst_at_idx]
      by_cases hs : stat.slvpending <;>
        simp [hm, hs, land_clear_master_self, land_clear_slave_keeps_master]
    · rw [on_interrupt_snd_eq]
      simp [hm, mem_if_list, List.mem_append]
    · rw [on_interrupt_snd_eq]
      refine ⟨(if stat.mstarbloss then [HwAction.clrMstArbLoss] else []) ++
        ((if stat.mstststperr then [HwAction.clrMstStStpErr] else []) ++
        ((if stat.slvpending then
            (if (if stat.mstpending then rem idx &&& not8 REMEDIATON_MASTER_STOP else rem idx) &&&
                  REMEDIATON_SLAVE_NAK ≠ 0
              then [HwAction.writeSlvNack] else []) ++ [HwAction.clrSlvPending]
          else []) ++
        ((if stat.slvdesel then [HwAction.clrSlvDesel] else []) ++
        [HwAction.wakeWaker idx]))), ?_⟩
      simp [hm, List.append_assoc]
  · intro hs
    refine ⟨?_, ?_, ?_⟩
    · rw [on_interrupt_fst_at_idx]
      simp [hs, land_clear_slave_self]
    · rw [on_interrupt_snd_eq]
      simp [hs, mem_if_list, List.mem_append, master_masked_keeps_slave_bit]
    · rw [on_interrupt_snd_eq]
      refine ⟨(if stat.mstpending then
          (if rem idx &&& REMEDIATON_MASTER_STOP ≠ 0 then [HwAction.writeMstStop] else []) ++
            [HwAction.clrMstPending]
        else []) ++
        ((if stat.mstarbloss then [HwAction.clrMstArbLoss] else []) ++
        (if stat.mstststperr then [HwAction.clrMstStStpErr] else [])),
        (if stat.slvdesel then [HwAction.clrSlvDesel] else []) ++ [HwAction.wakeWaker idx], ?_⟩
      simp [hs, List.append_assoc, master_masked_keeps_slave_bit]

/-- Witness for C1 at a concrete invocation (index 0, both pendings set,
both remediation bits requested). -/
theorem claim_C1_witness :
    ((on_interrupt 0 ⟨true, true, true, true, true⟩ (fun _ => 3)).1 0 &&&
        REMEDIATON_MASTER_STOP = 0) ∧
      ((on_interrupt 0 ⟨true, true, true, true, true⟩ (fun _ => 3)).1 0 &&&
        REMEDIATON_SLAVE_NAK = 0) :=
  ⟨((claim_C1_pending_branches 0 ⟨true, true, true, true, true⟩ (fun _ => 3)).1 rfl).1,
   ((claim_C1_pending_branches 0 ⟨true, true, true, true, true⟩ (fun _ => 3)).2 rfl).1⟩

/-- Number of `mststop` writes in one invocation: one exactly when the
master-pending branch runs and finds `MASTER_STOP` set. -/
theorem on_interrupt_count_stop (idx : Nat) (stat : IntStat) (rem : RemTable) :
    ((on_interrupt idx stat rem).2).count HwAction.writeMstStop =
      if stat.mstpending = true then
        (if rem idx &&& REMEDIATON_MASTER_STOP ≠ 0 then 1 else 0)
      else 0 := by
  rw [on_interrupt_snd_eq]
  obtain ⟨m, a, e, s, d⟩ := stat
  cases m <;> cases a <;> cases e <;> cases s <;> cases d <;>
    split_ifs <;> simp_all [List.count_append]

/-- Number of `slvnack` writes in one invocation: one exactly when the
slave-pending branch runs and finds `SLAVE_NAK` set. -/
theorem on_interrupt_count_nak (idx : Nat) (stat : IntStat) (rem : RemTable) :
    ((on_interrupt idx stat rem).2).count HwAction.writeSlvNack =
      if stat.slvpending = true then
        (if rem idx &&& REMEDIATON_SLAVE_NAK ≠ 0 then 1 else 0)
      else 0 := by
  rw [on_interrupt_snd_eq]
  obtain ⟨m, a, e, s, d⟩ := stat
  cases m <;> cases a <;> cases e <;> cases s <;> cases d <;>
    · rw [master_masked_keeps_slave_bit]
      split_ifs <;> simp_all [List.count_append]

/-- The `MASTER_STOP` bit after one invocation: cleared when the
master-pending branch ran, untouched otherwise. -/
theorem on_interrupt_master_bit (idx : Nat) (stat : IntStat) (rem : RemTable) :
    (on_interrupt idx stat rem).1 idx &&& REMEDIATON_MASTER_STOP =
      if stat.mstpending = true then 0 else rem idx &&& REMEDIATON_MASTER_STOP := by
  rw [on_interrupt_fst_at_idx]
  by_cases hs : stat.slvpending <;> by_cases hm : stat.mstpending <;>
    simp [hs, hm, land_clear_master_self, land_clear_slave_keeps_master]

/-- The `SLAVE_NAK` bit after one invocation: cleared when the
slave-pending branch ran, untouched otherwise. -/
theorem on_interrupt_slave_bit (idx : Nat) (stat : IntStat) (rem : RemTable) :
    (on_interrupt idx stat rem).1 idx &&& REMEDIATON_SLAVE_NAK =
      if stat.slvpending = true then 0 else rem idx &&& REMEDIATON_SLAVE_NAK := by
  rw [on_interrupt_fst_at_idx]
  by_cases hs : stat.slvpending <;> by_cases hm : stat.mstpending <;>
    simp [hs, hm, land_clear_slave_self, land_clear_master_keeps_slave]

/-- Across any run of invocations without new requests, the number of
STOP (resp. NAK) writes is bounded by whether the corresponding bit was
initially set. -/
theorem run_interrupts_count_le (idx : Nat) (stats : List IntStat) (rem : RemTable) :
    ((run_interrupts idx stats rem).2).count HwAction.writeMstStop ≤
      (if rem idx &&& REMEDIATON_MASTER_STOP ≠ 0 then 1 else 0) ∧
    ((run_interrupts idx stats rem).2).count HwAction.writeSlvNack ≤
      (if rem idx &&& REMEDIATON_SLAVE_NAK ≠ 0 then 1 else 0) := by
  induction stats generalizing rem with
  | nil => simp [run_interrupts]
  | cons s rest ih =>
    simp only [run_interrupts, List.count_append]
    constructor
    · have h3 := (ih ((on_interrupt idx s rem).1)).1
      rw [on_interrupt_master_bit] at h3
      rw [on_interrupt_count_stop]
      by_cases hm : s.mstpending = true
      · by_cases hb : rem idx &&& REMEDIATON_MASTER_STOP ≠ 0 <;>
          · simp [hm, hb] at h3 ⊢
            omega
      · have hm' : s.mstpending = false := by simpa using hm
        simp [hm'] at h3 ⊢
        omega
    · have h3 := (ih ((on_interrupt idx s rem).1)).2
      rw [on_interrupt_slave_bit] at h3
      rw [on_interrupt_count_nak]
      by_cases hs : s.slvpending = true
      · by_cases hb : rem idx &&& REMEDIATON_SLAVE_NAK ≠ 0 <;>
          · simp [hs, hb] at h3 ⊢
            omega
      · have hs' : s.slvpending = false := by simpa using hs
        simp [hs'] at h3 ⊢
        omega

/-- C2: a remediation bit set by one request triggers its hardware action
(STOP for `MASTER_STOP`, NAK for `SLAVE_NAK`) at most once across any
number of handler invocations, because the `fetch_and` clears the bit in
the same step that samples it. -/
theorem claim_C2_at_most_once (idx : Nat) (stats : List IntStat) (rem : RemTable) :
    ((run_interrupts idx stats rem).2).count HwAction.writeMstStop ≤ 1 ∧
    ((run_interrupts idx stats rem).2).count HwAction.writeSlvNack ≤ 1 := by
  have h := run_interrupts_count_le idx stats rem
  have h1 := h.1
  have h2 := h.2
  constructor
  · split_ifs at h1 <;> omega
  · split_ifs at h2 <;> omega

/-- Masking a byte below 256 with a mask whose bits 2..7 are set leaves
every bit of position 2 and above unchanged. -/
theorem land_byte_testBit_high (x m k : Nat) (hx : x < 256)
    (hm2 : m.testBit 2 = true) (hm3 : m.testBit 3 = true) (hm4 : m.testBit 4 = true)
    (hm5 : m.testBit 5 = true) (hm6 : m.testBit 6 = true) (hm7 : m.testBit 7 = true)
    (hk : 2 ≤ k) :
    (x &&& m).testBit k = x.testBit k := by
  rw [Nat.testBit_land]
  rcases Nat.lt_or_ge k 8 with h8 | h8
  · interval_cases k <;> simp_all
  · have hx8 : x.testBit k = false := by
      refine Nat.testBit_eq_false_of_lt (lt_of_lt_of_le hx ?_)
      calc (256 : Nat) = 2 ^ 8 := by norm_num
        _ ≤ 2 ^ k := Nat.pow_le_pow_right (by norm_num) h8
    simp [hx8]

/-- Bit 0 of a byte masked with the complement of `MASTER_STOP` is clear. -/
theorem testBit0_clear_master (x : Nat) :
    (x &&& not8 REMEDIATON_MASTER_STOP).testBit 0 = false := by
  rw [Nat.testBit_land]
  have h : (not8 REMEDIATON_MASTER_STOP).testBit 0 = false := by decide
  simp [h]

/-- Bit 1 survives masking with the complement of `MASTER_STOP`. -/
theorem testBit1_clear_master (x : Nat) :
    (x &&& not8 REMEDIATON_MASTER_STOP).testBit 1 = x.testBit 1 := by
  rw [Nat.testBit_land]
  have h : (not8 REMEDIATON_MASTER_STOP).testBit 1 = true := by decide
  simp [h]

/-- Bit 0 survives masking with the complement of `SLAVE_NAK`. -/
theorem testBit0_clear_slave (x : Nat) :
    (x &&& not8 REMEDIATON_SLAVE_NAK).testBit 0 = x.testBit 0 := by
  rw [Nat.testBit_land]
  have h : (not8 REMEDIATON_SLAVE_NAK).testBit 0 = true := by decide
  simp [h]

/-- Bit 1 of a byte masked with the complement of `SLAVE_NAK` is clear. -/
theorem testBit1_clear_slave (x : Nat) :
    (x &&& not8 REMEDIATON_SLAVE_NAK).testBit 1 = false := by
  rw [Nat.testBit_land]
  have h : (not8 REMEDIATON_SLAVE_NAK).testBit 1 = false := by decide
  simp [h]

/-- The byte stored for the handled index, as a function of which pending
branches ran. -/
def branch_val (m s : Bool) (x : Nat) : Nat :=
  if s = true then
    (if m = true then x &&& not8 REMEDIATON_MASTER_STOP else x) &&& not8 REMEDIATON_SLAVE_NAK
  else
    (if m = true then x &&& not8 REMEDIATON_MASTER_STOP else x)

/-- The stored value at the handled index, through `branch_val`. -/
theorem on_interrupt_fst_at_idx_bv (idx : Nat) (stat : IntStat) (rem : RemTable) :
    (on_interrupt idx stat rem).1 idx =
      branch_val stat.mstpending stat.slvpending (rem idx) := by
  rw [on_interrupt_fst_at_idx]
  rfl

/-- Bit 0 (`MASTER_STOP`) of the stored byte: cleared iff the
master-pending branch ran. -/
theorem branch_val_testBit0 (m s : Bool) (x : Nat) :
    (branch_val m s x).testBit 0 = (x.testBit 0 && !m) := by
  cases s <;> cases m
  · simp [branch_val]
  · rw [show branch_val true false x = x &&& not8 REMEDIATON_MASTER_STOP from rfl,
      testBit0_clear_master]
    simp
  · rw [show branch_val false true x = x &&& not8 REMEDIATON_SLAVE_NAK from rfl,
      testBit0_clear_slave]
    simp
  · rw [show branch_val true true x =
        (x &&& not8 REMEDIATON_MASTER_STOP) &&& not8 REMEDIATON_SLAVE_NAK from rfl,
      testBit0_clear_slave, testBit0_clear_master]
    simp

/-- Bit 1 (`SLAVE_NAK`) of the stored byte: cleared iff the slave-pending
branch ran. -/
theorem branch_val_testBit1 (m s : Bool) (x : Nat) :
    (branch_val m s x).testBit 1 = (x.testBit 1 && !s) := by
  cases s <;> cases m
  · simp [branch_val]
  · rw [show branch_val true false x = x &&& not8 REMEDIATON_MASTER_STOP from rfl,
      testBit1_clear_master]
    simp
  · rw [show branch_val false true x = x &&& not8 REMEDIATON_SLAVE_NAK from rfl,
      testBit1_clear_slave]
    simp
  · rw [show branch_val true true x =
        (x &&& not8 REMEDIATON_MASTER_STOP) &&& not8 REMEDIATON_SLAVE_NAK from rfl,
      testBit1_clear_slave]
    simp

/-- Bits 2 and above of the stored byte are unchanged. -/
theorem branch_val_testBit_high (m s : Bool) (x k : Nat) (hx : x < 256) (hk : 2 ≤ k) :
    (branch_val m s x).testBit k = x.testBit k := by
  have hms : (not8 REMEDIATON_MASTER_STOP).testBit 2 = true ∧
      (not8 REMEDIATON_MASTER_STOP).testBit 3 = true ∧
      (not8 REMEDIATON_MASTER_STOP).testBit 4 = true ∧
      (not8 REMEDIATON_MASTER_STOP).testBit 5 = true ∧
      (not8 REMEDIATON_MASTER_STOP).testBit 6 = true ∧
      (not8 REMEDIATON_MASTER_STOP).testBit 7 = true := by decide
  have hsn : (not8 REMEDIATON_SLAVE_NAK).testBit 2 = true ∧
      (not8 REMEDIATON_SLAVE_NAK).testBit 3 = true ∧
      (not8 REMEDIATON_SLAVE_NAK).testBit 4 = true ∧
      (not8 REMEDIATON_SLAVE_NAK).testBit 5 = true ∧
      (not8 REMEDIATON_SLAVE_NAK).testBit 6 = true ∧
      (not8 REMEDIATON_SLAVE_NAK).testBit 7 = true := by decide
  have hle : x &&& not8 REMEDIATON_MASTER_STOP < 256 :=
    lt_of_le_of_lt Nat.and_le_left hx
  cases s <;> cases m
  · rfl
  · rw [show branch_val true false x = x &&& not8 REMEDIATON_MASTER_STOP from rfl]
    exact land_byte_testBit_high _ _ _ hx hms.1 hms.2.1 hms.2.2.1 hms.2.2.2.1
      hms.2.2.2.2.1 hms.2.2.2.2.2 hk
  · rw [show branch_val false true x = x &&& not8 REMEDIATON_SLAVE_NAK from rfl]
    exact land_byte_testBit_high _ _ _ hx hsn.1 hsn.2.1 hsn.2.2.1 hsn.2.2.2.1
      hsn.2.2.2.2.1 hsn.2.2.2.2.2 hk
  · rw [show branch_val true true x =
        (x &&& not8 REMEDIATON_MASTER_STOP) &&& not8 REMEDIATON_SLAVE_NAK from rfl,
      land_byte_testBit_high _ _ _ hle hsn.1 hsn.2.1 hsn.2.2.1 hsn.2.2.2.1
        hsn.2.2.2.2.1 hsn.2.2.2.2.2 hk]
    exact land_byte_testBit_high _ _ _ hx hms.1 hms.2.1 hms.2.2.1 hms.2.2.2.1
      hms.2.2.2.2.1 hms.2.2.2.2.2 hk

/-- No bit of the stored byte is ever newly set. -/
theorem branch_val_mono (m s : Bool) (x k : Nat) :
    (branch_val m s x).testBit k = true → x.testBit k = true := by
  cases s <;> cases m <;> intro h
  · exact h
  · rw [show branch_val true false x = x &&& not8 REMEDIATON_MASTER_STOP from rfl,
      Nat.testBit_land] at h
    simp only [Bool.and_eq_true] at h
    exact h.1
  · rw [show branch_val false true x = x &&& not8 REMEDIATON_SLAVE_NAK from rfl,
      Nat.testBit_land] at h
    simp only [Bool.and_eq_true] at h
    exact h.1
  · rw [show branch_val true true x =
        (x &&& not8 REMEDIATON_MASTER_STOP) &&& not8 REMEDIATON_SLAVE_NAK from rfl,
      Nat.testBit_land, Nat.testBit_land] at h
    simp only [Bool.and_eq_true] at h
    exact h.1.1

/-- C3: one invocation only ever clears `MASTER_STOP` (when the
master-pending branch runs) and `SLAVE_NAK` (when the slave-pending
branch runs) in the flags word of the handled index: no bit is ever set,
each branch leaves the other remediation bit alone, every higher bit is
unchanged, flags of other indices are unchanged, and with neither pending
branch active the whole table is unchanged. -/
theorem claim_C3_frame (idx : Nat) (stat : IntStat) (rem : RemTable) (h : rem idx < 256) :
    (∀ i, i ≠ idx → (on_interrupt idx stat rem).1 i = rem i) ∧
    (∀ k, ((on_interrupt idx stat rem).1 idx).testBit k = true →
      (rem idx).testBit k = true) ∧
    ((on_interrupt idx stat rem).1 idx).testBit 0 =
      ((rem idx).testBit 0 && !stat.mstpending) ∧
    ((on_interrupt idx stat rem).1 idx).testBit 1 =
      ((rem idx).testBit 1 && !stat.slvpending) ∧
    (∀ k, 2 ≤ k → ((on_interrupt idx stat rem).1 idx).testBit k = (rem idx).testBit k) ∧
    (stat.mstpending = false → stat.slvpending = false →
      (on_interrupt idx stat rem).1 = rem) := by
  refine ⟨?_, ?_, ?_, ?_, ?_, ?_⟩
  · intro i hi
    rw [on_interrupt_fst_eq]
    simp [hi]
  · intro k hk
    rw [on_interrupt_fst_at_idx_bv] at hk
    exact branch_val_mono _ _ _ _ hk
  · rw [on_interrupt_fst_at_idx_bv]
    exact branch_val_testBit0 _ _ _
  · rw [on_interrupt_fst_at_idx_bv]
    exact branch_val_testBit1 _ _ _
  · intro k hk
    rw [on_interrupt_fst_at_idx_bv]
    exact branch_val_testBit_high _ _ _ _ h hk
  · intro hm hs
    funext i
    rw [on_interrupt_fst_eq]
    by_cases hi : i = idx <;> simp [hi, hm, hs]

/-- Witness for C3 at a concrete invocation (index 0, master-pending
only, both remediation bits set). -/
theorem claim_C3_witness :
    (on_interrupt 0 ⟨true, false, false, false, false⟩ (fun _ => 3)).1 5 = 3 ∧
      ((on_interrupt 0 ⟨true, false, false, false, false⟩ (fun _ => 3)).1 0).testBit 1 =
        ((3 : Nat).testBit 1 && !false) ∧
      ((on_interrupt 0 ⟨true, false, false, false, false⟩ (fun _ => 3)).1 0).testBit 5 =
        (3 : Nat).testBit 5 :=
  ⟨(claim_C3_frame 0 ⟨true, false, false, false, false⟩ (fun _ => 3) (by decide)).1 5
      (by decide),
   (claim_C3_frame 0 ⟨true, false, false, false, false⟩ (fun _ => 3) (by decide)).2.2.2.1,
   (claim_C3_frame 0 ⟨true, false, false, false, false⟩ (fun _ => 3) (by decide)).2.2.2.2.1 5
      (by decide)⟩

/-- C5: with no further requests, once a handler invocation observes the
pending condition for every remediation bit still set (flags hold only
recognized bits, as `request` only ever sets `MASTER_STOP` and
`SLAVE_NAK`), that single invocation clears the flags to `NONE` and wakes
the slot, after which the await poll reads `NONE` and returns `Ready`. -/
theorem claim_C5_await_clear_terminates (info : Info) (stat : IntStat) (rem : RemTable)
    (hval : rem info.index < 4)
    (hm : rem info.index &&& REMEDIATON_MASTER_STOP ≠ 0 → stat.mstpending = true)
    (hs : rem info.index &&& REMEDIATON_SLAVE_NAK ≠ 0 → stat.slvpending = true) :
    (on_interrupt info.index stat rem).1 info.index = REMEDIATON_NONE ∧
      HwAction.wakeWaker info.index ∈ (on_interrupt info.index stat rem).2 ∧
      wait_remediation_poll (on_interrupt info.index stat rem).1 info =
        (info.index, PollResult.ready) := by
  have hzero : (on_interrupt info.index stat rem).1 info.index = REMEDIATON_NONE := by
    rw [on_interrupt_fst_at_idx_bv]
    have hx : rem info.index = 0 ∨ rem info.index = 1 ∨ rem info.index = 2 ∨
        rem info.index = 3 := by omega
    rcases hx with h | h | h | h
    · rw [h]
      cases hmb : stat.mstpending <;> cases hsb : stat.slvpending <;>
        simp [branch_val] <;> decide
    · have hmt : stat.mstpending = true := hm (by rw [h]; decide)
      rw [h, hmt]
      cases hsb : stat.slvpending <;> simp [branch_val] <;> decide
    · have hst : stat.slvpending = true := hs (by rw [h]; decide)
      rw [h, hst]
      cases hmb : stat.mstpending <;> simp [branch_val] <;> decide
    · have hmt : stat.mstpending = true := hm (by rw [h]; decide)
      have hst : stat.slvpending = true := hs (by rw [h]; decide)
      rw [h, hmt, hst]
      simp [branch_val]
      decide
  refine ⟨hzero, ?_, ?_⟩
  · obtain ⟨l, hl, _⟩ := on_interrupt_trace_shape info.index stat rem
    rw [hl]
    simp
  · simp [wait_remediation_poll, hzero]

/-- Witness for C5 at a concrete state (index 0, both bits requested, the
handler observing both pending conditions). -/
theorem claim_C5_witness :
    (on_interrupt 0 ⟨true, false, false, true, false⟩ (fun _ => 3)).1 0 = REMEDIATON_NONE ∧
      HwAction.wakeWaker 0 ∈ (on_interrupt 0 ⟨true, false, false, true, false⟩ (fun _ => 3)).2 ∧
      wait_remediation_poll (on_interrupt 0 ⟨true, false, false, true, false⟩ (fun _ => 3)).1
        ⟨0⟩ = (0, PollResult.ready) :=
  claim_C5_await_clear_terminates ⟨0⟩ ⟨true, false, false, true, false⟩ (fun _ => 3)
    (by decide) (fun _ => rfl) (fun _ => rfl)

/-- Witness for C2 at a concrete run of two invocations with both bits
requested. -/
theorem claim_C2_witness :
    ((run_interrupts 0 [⟨true, true, true, true, true⟩, ⟨true, true, true, true, true⟩]
        (fun _ => 3)).2).count HwAction.writeMstStop ≤ 1 ∧
      ((run_interrupts 0 [⟨true, true, true, true, true⟩, ⟨true, true, true, true, true⟩]
        (fun _ => 3)).2).count HwAction.writeSlvNack ≤ 1 :=
  claim_C2_at_most_once 0 [⟨true, true, true, true, true⟩, ⟨true, true, true, true, true⟩]
    (fun _ => 3)

/-- Witness for C4 at a concrete table with cleared flags. -/
theorem claim_C4_witness :
    (wait_remediation_poll (fun _ => 0) ⟨0⟩).2 = PollResult.ready :=
  ((claim_C4_poll_ready_iff (fun _ => 0) ⟨0⟩).2.1).mpr rfl

/-- Witness for C10 at the concrete instance FLEXCOMM15. -/
theorem claim_C10_witness :
    (Flexcomm.info Flexcomm.FLEXCOMM15).index = Flexcomm.index Flexcomm.FLEXCOMM15 :=
  claim_C10_info_index_agree.1 Flexcomm.FLEXCOMM15

end EmbassyImxrt.I2c
